import Mathlib

/-!
Shallow embedding of the interprocedural accessed-storage analysis
(`lib/SILOptimizer/Analysis/AccessedStorageAnalysis.cpp`).

Modelling conventions:
  * `SILAccessKind` carries only `Read` and `Modify`, the two kinds the
    analysis tracks (the source comments: "Assume we don't track
    Init/Deinit", and the spec's data model lists exactly these two).
  * `AccessedStorage` is a sum type over the storage kinds; the invalid
    (default-constructed) storage that `transformCalleeStorage` returns for
    callee-local storage is modelled as `Option.none` at the transform's
    return type, so map keys are always valid storage, matching the
    assertion in `mayConflictWith`.
  * The `llvm_unreachable` branch for `Nested` storage in
    `transformCalleeStorage` is modelled as `Except.error ()`; every
    other branch is `Except.ok`.
  * The `DenseMap` is an association list with first-occurrence lookup;
    `try_emplace` appends a fresh key or merges into the existing entry.
  * External collaborators that live outside the excerpted file are
    parameters: `findAccessedStorageOrigin` is a function argument `ro`,
    `AccessedStorage::isDistinctFrom` is a function argument of the
    conflict query.
-/

inductive SILAccessKind where
  | Read
  | Modify
deriving DecidableEq, Repr

/-- Modelled from the spec: the enforcement mode carried by a begin-access
instruction ("static/dynamic — only dynamic is tracked"); the enum itself is
declared in a header that is not part of the excerpt. -/
inductive SILAccessEnforcement where
  | Static
  | Dynamic
deriving DecidableEq, Repr

/-- SIL values are opaque; the analysis only ever asks whether a value is a
function argument (and for its parameter index). -/
inductive SILValue where
  | functionArg (index : Nat) (id : Nat)
  | other (id : Nat)
deriving DecidableEq, Repr

/-- The storage-identity sum type (`AccessedStorage`); structural equality.
`argument` carries the parameter index together with the underlying argument
value (in the source the index is derived from the stored value). -/
inductive AccessedStorage where
  | box (id : Nat)
  | stack (id : Nat)
  | global (id : Nat)
  | classStorage (obj : SILValue) (projection : Nat)
  | argument (index : Nat) (value : SILValue)
  | nested (id : Nat)
  | unidentified (value : SILValue)
deriving DecidableEq, Repr

def AccessedStorage.isLocal : AccessedStorage → Bool
  | .box _ => true
  | .stack _ => true
  | _ => false

def AccessedStorage.isUnidentified : AccessedStorage → Bool
  | .unidentified _ => true
  | _ => false

def AccessedStorage.isNested : AccessedStorage → Bool
  | .nested _ => true
  | _ => false

structure StorageAccessInfo where
  accessKind : SILAccessKind
  noNestedConflict : Bool
deriving DecidableEq, Repr

structure FunctionAccessedStorage where
  storageAccessMap : List (AccessedStorage × StorageAccessInfo)
  unidentifiedAccess : Option SILAccessKind
deriving DecidableEq, Repr

/-- `static bool updateAccessKind(SILAccessKind &LHS, SILAccessKind RHS)`:
returns the updated LHS together with the `changed` flag. -/
def updateAccessKind (LHS RHS : SILAccessKind) : SILAccessKind × Bool :=
  if LHS = SILAccessKind.Read ∧ RHS = SILAccessKind.Modify then
    (RHS, true)
  else
    (LHS, false)

/-- `static bool updateOptionalAccessKind(Optional<SILAccessKind> &LHS,
Optional<SILAccessKind> RHS)`. -/
def updateOptionalAccessKind (LHS RHS : Option SILAccessKind) :
    Option SILAccessKind × Bool :=
  match RHS with
  | none => (LHS, false)
  | some r =>
    match LHS with
    | none => (some r, true)
    | some l =>
      let p := updateAccessKind l r
      (some p.1, p.2)

/-- `StorageAccessInfo::mergeFrom`: returns the updated record together with
the `changed` flag. -/
def StorageAccessInfo.mergeFrom (self RHS : StorageAccessInfo) :
    StorageAccessInfo × Bool :=
  let p := updateAccessKind self.accessKind RHS.accessKind
  if self.noNestedConflict ∧ ¬ RHS.noNestedConflict then
    ({ accessKind := p.1, noNestedConflict := false }, true)
  else
    ({ accessKind := p.1, noNestedConflict := self.noNestedConflict }, p.2)

/-- First-occurrence lookup in the storage map (`DenseMap::find`). -/
def lookupStorage (m : List (AccessedStorage × StorageAccessInfo))
    (k : AccessedStorage) : Option StorageAccessInfo :=
  match m with
  | [] => none
  | e :: rest => if e.1 = k then some e.2 else lookupStorage rest k

/-- Replace the value at the first occurrence of key `k`
(mutating `result.first->second` through the `DenseMap` iterator). -/
def replaceFirst (m : List (AccessedStorage × StorageAccessInfo))
    (k : AccessedStorage) (v : StorageAccessInfo) :
    List (AccessedStorage × StorageAccessInfo) :=
  match m with
  | [] => []
  | e :: rest => if e.1 = k then (k, v) :: rest else e :: replaceFirst rest k v

/-- `FunctionAccessedStorage::updateUnidentifiedAccess`. -/
def FunctionAccessedStorage.updateUnidentifiedAccess
    (self : FunctionAccessedStorage) (accessKind : SILAccessKind) :
    FunctionAccessedStorage × Bool :=
  match self.unidentifiedAccess with
  | none => ({ self with unidentifiedAccess := some accessKind }, true)
  | some l =>
    let p := updateAccessKind l accessKind
    ({ self with unidentifiedAccess := some p.1 }, p.2)

/-- One iteration of the loop in `FunctionAccessedStorage::mergeAccesses`.
The transform yields `Except.error` only at the `llvm_unreachable` branch,
`Except.ok none` for the invalid storage object (`if (!storage) continue`),
and `Except.ok (some s)` otherwise. -/
def mergeStep (transform : AccessedStorage → Except Unit (Option AccessedStorage))
    (acc : FunctionAccessedStorage × Bool)
    (entry : AccessedStorage × StorageAccessInfo) :
    Except Unit (FunctionAccessedStorage × Bool) :=
  match transform entry.1 with
  | .error u => .error u
  | .ok none => .ok acc
  | .ok (some storage) =>
    if storage.isUnidentified then
      let p := acc.1.updateUnidentifiedAccess entry.2.accessKind
      .ok (p.1, acc.2 || p.2)
    else
      match lookupStorage acc.1.storageAccessMap storage with
      | none =>
        .ok ({ acc.1 with
                storageAccessMap := acc.1.storageAccessMap ++ [(storage, entry.2)] },
             true)
      | some info =>
        let p := info.mergeFrom entry.2
        .ok ({ acc.1 with
                storageAccessMap := replaceFirst acc.1.storageAccessMap storage p.1 },
             acc.2 || p.2)

/-- The `for (auto &accessEntry : otherAccesses)` loop of `mergeAccesses`,
over the snapshot of `other`'s entries. -/
def mergeLoop (transform : AccessedStorage → Except Unit (Option AccessedStorage))
    (acc : FunctionAccessedStorage × Bool) :
    List (AccessedStorage × StorageAccessInfo) →
    Except Unit (FunctionAccessedStorage × Bool)
  | [] => .ok acc
  | e :: rest =>
    match mergeStep transform acc e with
    | .error u => .error u
    | .ok acc2 => mergeLoop transform acc2 rest

/-- `FunctionAccessedStorage::mergeAccesses`. The snapshot of `other`'s map
(the defensive copy guarding against self-recursion) is inherent here:
`other` is an immutable value, so the loop ranges over its entries as they
were before any mutation of `self`. -/
def FunctionAccessedStorage.mergeAccesses (self other : FunctionAccessedStorage)
    (transform : AccessedStorage → Except Unit (Option AccessedStorage)) :
    Except Unit (FunctionAccessedStorage × Bool) :=
  match mergeLoop transform (self, false) other.storageAccessMap with
  | .error u => .error u
  | .ok (s, changed) =>
    match other.unidentifiedAccess with
    | none => .ok (s, changed)
    | some u =>
      let p := s.updateUnidentifiedAccess u
      .ok (p.1, changed || p.2)

/-- `FunctionAccessedStorage::mergeFrom`: the transform is the identity. -/
def FunctionAccessedStorage.mergeFrom (self other : FunctionAccessedStorage) :
    Except Unit (FunctionAccessedStorage × Bool) :=
  self.mergeAccesses other (fun s => .ok (some s))

/-- A `partial_apply` instruction: its captured argument list and the callee
argument index of its first applied argument. -/
structure PartialApply where
  firstAppliedArgIndex : Nat
  arguments : List SILValue
deriving DecidableEq, Repr

/-- A full apply site: its direct argument list, and the partial-apply
instruction its callee origin resolves to, when it does
(`dyn_cast<PartialApplyInst>(fullApply.getCalleeOrigin())`). -/
structure FullApplySite where
  arguments : List SILValue
  calleeOriginPAI : Option PartialApply
deriving DecidableEq, Repr

/-- The `unsigned` subtraction
`paramIndex - ApplySite(PAI).getCalleeArgIndexOfFirstAppliedArg()`,
taken modulo 2^32 as in the source's 32-bit arithmetic. -/
def appliedCalleeArgIndex (paramIndex : Nat) (PAI : PartialApply) : Nat :=
  (paramIndex + 2 ^ 32 - PAI.firstAppliedArgIndex % 2 ^ 32) % 2 ^ 32

/-- `static SILValue getCallerArg(FullApplySite fullApply, unsigned paramIndex)`;
the invalid `SILValue()` is `Option.none`. -/
def getCallerArg (fullApply : FullApplySite) (paramIndex : Nat) :
    Option SILValue :=
  if h : paramIndex < fullApply.arguments.length then
    some (fullApply.arguments.get ⟨paramIndex, h⟩)
  else
    match fullApply.calleeOriginPAI with
    | none => none
    | some PAI =>
      if h2 : appliedCalleeArgIndex paramIndex PAI < PAI.arguments.length then
        some (PAI.arguments.get ⟨appliedCalleeArgIndex paramIndex PAI, h2⟩)
      else
        none

/-- `static AccessedStorage transformCalleeStorage(const AccessedStorage &,
FullApplySite)`. `ro` is the external `findAccessedStorageOrigin` capability.
`Except.ok none` is the invalid storage object returned for callee-local
storage; `Except.error ()` is the `llvm_unreachable` for `Nested`. -/
def transformCalleeStorage (ro : SILValue → AccessedStorage)
    (storage : AccessedStorage) (fullApply : FullApplySite) :
    Except Unit (Option AccessedStorage) :=
  match storage with
  | .box _ => .ok none
  | .stack _ => .ok none
  | .global g => .ok (some (.global g))
  | .classStorage obj projection =>
    match obj with
    | .functionArg index _ =>
      match getCallerArg fullApply index with
      | some argVal => .ok (some (.classStorage argVal projection))
      | none => .ok (some storage)
    | .other _ => .ok (some storage)
  | .argument index value =>
    match getCallerArg fullApply index with
    | some argVal => .ok (some (ro argVal))
    | none => .ok (some (.unidentified value))
  | .nested _ => .error ()
  | .unidentified _ => .ok (some storage)

/-- `FunctionAccessedStorage::mergeFromApply`. -/
def FunctionAccessedStorage.mergeFromApply (ro : SILValue → AccessedStorage)
    (self calleeAccess : FunctionAccessedStorage) (fullApply : FullApplySite) :
    Except Unit (FunctionAccessedStorage × Bool) :=
  self.mergeAccesses calleeAccess (fun s => transformCalleeStorage ro s fullApply)

/-- Per-parameter slice of the external side-effect signature. -/
structure ParamEffects where
  mayRead : Bool
  mayWrite : Bool
deriving DecidableEq, Repr

/-- Modelled from the spec: the external `FunctionSideEffects` signature
("global effects + per-parameter effects, each flagged mayRead/mayWrite");
the class itself lives outside the excerpt. -/
structure SideEffectsSig where
  globalMayRead : Bool
  globalMayWrite : Bool
  parameterEffects : List ParamEffects
deriving DecidableEq, Repr

/-- The facts about a `SILFunction` this analysis consumes: whether its body
is available (`isDefinition`), and the external side-effect signature when
`FunctionSideEffects::summarizeFunction` succeeds (`none` when it fails). -/
structure SILFunction where
  isDefinition : Bool
  sideEffects : Option SideEffectsSig
deriving DecidableEq, Repr

/-- Modelled from the spec: `setWorstEffects` (declared in the header, not in
the excerpt) sets `unidentifiedAccess` to the worst case `Modify` and leaves
`storageAccessMap` empty. -/
def FunctionAccessedStorage.setWorstEffects (_self : FunctionAccessedStorage) :
    FunctionAccessedStorage :=
  { storageAccessMap := [], unidentifiedAccess := some SILAccessKind.Modify }

/-- `FunctionAccessedStorage::summarizeFunction`; returns the updated summary
together with the returned Bool. -/
def FunctionAccessedStorage.summarizeFunction (self : FunctionAccessedStorage)
    (F : SILFunction) : FunctionAccessedStorage × Bool :=
  if F.isDefinition then
    (self, false)
  else
    match F.sideEffects with
    | none => (self.setWorstEffects, true)
    | some sig =>
      let mayRead :=
        sig.parameterEffects.foldl (fun a p => a || p.mayRead) sig.globalMayRead
      let mayWrite :=
        sig.parameterEffects.foldl (fun a p => a || p.mayWrite) sig.globalMayWrite
      if mayWrite then
        ({ self with unidentifiedAccess := some SILAccessKind.Modify }, true)
      else if mayRead then
        ({ self with unidentifiedAccess := some SILAccessKind.Read }, true)
      else
        (self, true)

/-- A begin-access instruction (either the paired `begin_access` or the
unpaired `begin_unpaired_access` form): enforcement, access kind, source
address, and the static no-nested-conflict annotation. -/
structure BeginAccessData where
  enforcement : SILAccessEnforcement
  accessKind : SILAccessKind
  source : SILValue
  noNestedConflict : Bool
deriving DecidableEq, Repr

inductive SILInstruction where
  | beginAccess (b : BeginAccessData)
  | beginUnpairedAccess (b : BeginAccessData)
  | otherInst (id : Nat)
deriving DecidableEq, Repr

/-- `FunctionAccessedStorage::visitBeginAccess`; `ro` is
`findAccessedStorageOrigin`. The `StorageAccessInfo(beginAccess)` record takes
the instruction's access kind and no-nested-conflict flag (its constructor is
header code, matching spec section 4.3). -/
def FunctionAccessedStorage.visitBeginAccess (ro : SILValue → AccessedStorage)
    (self : FunctionAccessedStorage) (beginAccess : BeginAccessData) :
    FunctionAccessedStorage :=
  if beginAccess.enforcement ≠ SILAccessEnforcement.Dynamic then
    self
  else
    let storage := ro beginAccess.source
    if storage.isUnidentified then
      let p := updateOptionalAccessKind self.unidentifiedAccess
                 (some beginAccess.accessKind)
      { self with unidentifiedAccess := p.1 }
    else
      let accessInfo : StorageAccessInfo :=
        { accessKind := beginAccess.accessKind,
          noNestedConflict := beginAccess.noNestedConflict }
      match lookupStorage self.storageAccessMap storage with
      | none =>
        { self with
            storageAccessMap := self.storageAccessMap ++ [(storage, accessInfo)] }
      | some info =>
        { self with
            storageAccessMap :=
              replaceFirst self.storageAccessMap storage
                (info.mergeFrom accessInfo).1 }

/-- `FunctionAccessedStorage::analyzeInstruction`. -/
def FunctionAccessedStorage.analyzeInstruction (ro : SILValue → AccessedStorage)
    (self : FunctionAccessedStorage) : SILInstruction → FunctionAccessedStorage
  | .beginAccess b => self.visitBeginAccess ro b
  | .beginUnpairedAccess b => self.visitBeginAccess ro b
  | .otherInst _ => self

/-- Modelled from the spec: `accessKindMayConflict` (header code): two access
kinds conflict iff at least one of them is `Modify` (Read/Read never
conflicts). -/
def accessKindMayConflict (a b : SILAccessKind) : Bool :=
  a == SILAccessKind.Modify || b == SILAccessKind.Modify

/-- `FunctionAccessedStorage::mayConflictWith`; `isDistinctFrom` is the
external capability of the storage-identity abstraction. The source's early
return on a conflicting `unidentifiedAccess` is the left disjunct. -/
def FunctionAccessedStorage.mayConflictWith
    (isDistinctFrom : AccessedStorage → AccessedStorage → Bool)
    (self : FunctionAccessedStorage) (otherAccessKind : SILAccessKind)
    (otherStorage : AccessedStorage) : Bool :=
  (match self.unidentifiedAccess with
   | some u => accessKindMayConflict otherAccessKind u
   | none => false)
  || self.storageAccessMap.any (fun accessEntry =>
       accessKindMayConflict otherAccessKind accessEntry.2.accessKind
       && !(isDistinctFrom otherStorage accessEntry.1))

/-- The sequence of record merges from claim C6: fold `mergeFrom` over a list
of incoming records. -/
def mergeSeq (r : StorageAccessInfo) (others : List StorageAccessInfo) :
    StorageAccessInfo :=
  others.foldl (fun a o => (a.mergeFrom o).1) r

/-- Pointwise record order: the access kind may only go up (Read < Modify)
and the `noNestedConflict` flag may only go down. -/
def StorageAccessInfo.le (a b : StorageAccessInfo) : Prop :=
  (a.accessKind = SILAccessKind.Modify → b.accessKind = SILAccessKind.Modify) ∧
  (b.noNestedConflict = true → a.noNestedConflict = true)

/-- Growth order on summaries: every mapped key stays mapped with a record
that only grew, and the unidentified slot is never cleared nor downgraded. -/
def summaryLE (a b : FunctionAccessedStorage) : Prop :=
  (∀ k v, lookupStorage a.storageAccessMap k = some v →
    ∃ w, lookupStorage b.storageAccessMap k = some w ∧ v.le w) ∧
  (∀ u, a.unidentifiedAccess = some u →
    ∃ w, b.unidentifiedAccess = some w ∧
      (u = SILAccessKind.Modify → w = SILAccessKind.Modify))

/-- Well-formedness of a summary map as the analysis maintains it: keys are
unique (`DenseMap`) and the Unidentified kind is routed to the aggregate
slot, never stored as a key. -/
def WF (s : FunctionAccessedStorage) : Prop :=
  (s.storageAccessMap.map Prod.fst).Nodup ∧
  ∀ e ∈ s.storageAccessMap, e.1.isUnidentified = false

theorem accessKindMayConflict_iff (a b : SILAccessKind) :
    accessKindMayConflict a b = true ↔
      (a = SILAccessKind.Modify ∨ b = SILAccessKind.Modify) := by
  cases a <;> cases b <;> decide

theorem foldl_or_eq_any {α : Type} (f : α → Bool) :
    ∀ (l : List α) (b : Bool),
      List.foldl (fun a x => a || f x) b l = (b || l.any f)
  | [], b => by simp
  | x :: l, b => by
    simp [List.foldl, foldl_or_eq_any f l (b || f x), Bool.or_assoc]

theorem mergeFrom_fst_modify (a o : StorageAccessInfo)
    (h : a.accessKind = SILAccessKind.Modify) :
    (a.mergeFrom o).1.accessKind = SILAccessKind.Modify := by
  obtain ⟨k1, n1⟩ := a
  obtain ⟨k2, n2⟩ := o
  cases k1 <;> cases k2 <;> cases n1 <;> cases n2 <;> simp_all [StorageAccessInfo.mergeFrom, updateAccessKind]

theorem mergeFrom_fst_nnc (a o : StorageAccessInfo)
    (h : a.noNestedConflict = false) :
    (a.mergeFrom o).1.noNestedConflict = false := by
  obtain ⟨k1, n1⟩ := a
  obtain ⟨k2, n2⟩ := o
  cases k1 <;> cases k2 <;> cases n1 <;> cases n2 <;> simp_all [StorageAccessInfo.mergeFrom, updateAccessKind]

/-- C5: `StorageAccessInfo::mergeFrom` joins the access kind over the lattice
Read < Modify (result is Modify iff either side is Modify), ANDs the
`noNestedConflict` flags, returns `changed` iff a field actually changed, and
merging a record with itself changes nothing. -/
theorem C5_record_merge_spec :
    ∀ s o : StorageAccessInfo,
      ((s.mergeFrom o).1.accessKind = SILAccessKind.Modify ↔
        (s.accessKind = SILAccessKind.Modify ∨
         o.accessKind = SILAccessKind.Modify)) ∧
      ((s.mergeFrom o).1.noNestedConflict =
        (s.noNestedConflict && o.noNestedConflict)) ∧
      ((s.mergeFrom o).2 = true ↔ (s.mergeFrom o).1 ≠ s) ∧
      s.mergeFrom s = (s, false) := by
  intro s o
  obtain ⟨k1, n1⟩ := s
  obtain ⟨k2, n2⟩ := o
  cases k1 <;> cases k2 <;> cases n1 <;> cases n2 <;> decide

/-- Witness for C5 at a concrete pair of records. -/
theorem C5_record_merge_spec_witness :
    (StorageAccessInfo.mk SILAccessKind.Read true).mergeFrom
      (StorageAccessInfo.mk SILAccessKind.Read true) =
      (StorageAccessInfo.mk SILAccessKind.Read true, false) :=
  (C5_record_merge_spec ⟨SILAccessKind.Read, true⟩
    ⟨SILAccessKind.Read, true⟩).2.2.2

/-- C6: under any sequence of merges, a record's access kind is monotone
nondecreasing (Modify is never downgraded) and `noNestedConflict` is monotone
nonincreasing (false is permanent). -/
theorem C6_record_merge_monotone :
    ∀ (others : List StorageAccessInfo) (r : StorageAccessInfo),
      (r.accessKind = SILAccessKind.Modify →
        (mergeSeq r others).accessKind = SILAccessKind.Modify) ∧
      (r.noNestedConflict = false →
        (mergeSeq r others).noNestedConflict = false)
  | [], r => ⟨fun h => h, fun h => h⟩
  | o :: rest, r => by
    refine ⟨fun h => ?_, fun h => ?_⟩
    · exact (C6_record_merge_monotone rest (r.mergeFrom o).1).1
        (mergeFrom_fst_modify r o h)
    · exact (C6_record_merge_monotone rest (r.mergeFrom o).1).2
        (mergeFrom_fst_nnc r o h)

/-- Witness for C6 at a concrete record and merge sequence. -/
theorem C6_record_merge_monotone_witness :
    (mergeSeq ⟨SILAccessKind.Modify, false⟩
        [⟨SILAccessKind.Read, true⟩, ⟨SILAccessKind.Read, true⟩]).accessKind =
      SILAccessKind.Modify ∧
    (mergeSeq ⟨SILAccessKind.Modify, false⟩
        [⟨SILAccessKind.Read, true⟩, ⟨SILAccessKind.Read, true⟩]).noNestedConflict =
      false :=
  ⟨(C6_record_merge_monotone _ _).1 rfl, (C6_record_merge_monotone _ _).2 rfl⟩

/-- C1: the conflict query returns true iff the aggregate unidentified slot is
set and conflicts with the candidate kind, or some map entry's kind conflicts
and the candidate storage is not provably distinct from the entry's identity;
against `unidentifiedAccess = Modify` a Read query conflicts for every
storage, and two access kinds conflict iff at least one is Modify. -/
theorem C1_mayConflictWith_spec :
    ∀ (isDistinctFrom : AccessedStorage → AccessedStorage → Bool)
      (S : FunctionAccessedStorage) (k : SILAccessKind) (s : AccessedStorage),
      (S.mayConflictWith isDistinctFrom k s = true ↔
        ((∃ u, S.unidentifiedAccess = some u ∧
            (k = SILAccessKind.Modify ∨ u = SILAccessKind.Modify)) ∨
         (∃ e ∈ S.storageAccessMap,
            (k = SILAccessKind.Modify ∨
             e.2.accessKind = SILAccessKind.Modify) ∧
            isDistinctFrom s e.1 = false))) ∧
      (S.unidentifiedAccess = some SILAccessKind.Modify →
        S.mayConflictWith isDistinctFrom SILAccessKind.Read s = true) ∧
      (∀ a b, accessKindMayConflict a b = true ↔
        (a = SILAccessKind.Modify ∨ b = SILAccessKind.Modify)) := by
  intro isDistinctFrom S k s
  refine ⟨?_, ?_, fun a b => accessKindMayConflict_iff a b⟩
  · cases h : S.unidentifiedAccess with
    | none =>
      simp [FunctionAccessedStorage.mayConflictWith, h, List.any_eq_true,
        accessKindMayConflict_iff, Bool.and_eq_true, Bool.not_eq_true']
    | some u =>
      simp [FunctionAccessedStorage.mayConflictWith, h, List.any_eq_true,
        accessKindMayConflict_iff, Bool.and_eq_true, Bool.not_eq_true']
  · intro h
    simp [FunctionAccessedStorage.mayConflictWith, h, accessKindMayConflict]

/-- Witness for C1: a summary whose unidentified slot is Modify conflicts with
a Read query at an arbitrary storage. -/
theorem C1_mayConflictWith_spec_witness :
    FunctionAccessedStorage.mayConflictWith (fun _ _ => true)
      { storageAccessMap := [],
        unidentifiedAccess := some SILAccessKind.Modify }
      SILAccessKind.Read (AccessedStorage.global 0) = true :=
  (C1_mayConflictWith_spec (fun _ _ => true)
    { storageAccessMap := [], unidentifiedAccess := some SILAccessKind.Modify }
    SILAccessKind.Read (AccessedStorage.global 0)).2.1 rfl

/-- C8: a begin-access whose enforcement is not Dynamic leaves the summary
unchanged (in both the paired and unpaired forms), and instruction kinds other
than the two begin-access forms are ignored entirely. -/
theorem C8_nondynamic_ignored :
    ∀ (ro : SILValue → AccessedStorage) (self : FunctionAccessedStorage)
      (b : BeginAccessData) (n : Nat),
      b.enforcement ≠ SILAccessEnforcement.Dynamic →
      self.visitBeginAccess ro b = self ∧
      self.analyzeInstruction ro (SILInstruction.beginAccess b) = self ∧
      self.analyzeInstruction ro (SILInstruction.beginUnpairedAccess b) = self ∧
      self.analyzeInstruction ro (SILInstruction.otherInst n) = self := by
  intro ro self b n h
  have hv : self.visitBeginAccess ro b = self := by
    unfold FunctionAccessedStorage.visitBeginAccess
    rw [if_pos h]
  exact ⟨hv, hv, hv, rfl⟩

/-- Witness for C8 at a concrete statically enforced begin-access. -/
theorem C8_nondynamic_ignored_witness :
    FunctionAccessedStorage.visitBeginAccess (fun _ => AccessedStorage.global 0)
      { storageAccessMap := [], unidentifiedAccess := none }
      { enforcement := SILAccessEnforcement.Static,
        accessKind := SILAccessKind.Modify,
        source := SILValue.other 0, noNestedConflict := true } =
      { storageAccessMap := [], unidentifiedAccess := none } :=
  (C8_nondynamic_ignored (fun _ => AccessedStorage.global 0)
    { storageAccessMap := [], unidentifiedAccess := none }
    { enforcement := SILAccessEnforcement.Static,
      accessKind := SILAccessKind.Modify,
      source := SILValue.other 0, noNestedConflict := true } 0
    (by decide)).1

/-- C4: `summarizeFunction` returns false when the body is available; when it
is not, it returns true in every branch, setting `unidentifiedAccess` to
Modify when the external signature is unavailable, else joining the global
and per-parameter mayRead/mayWrite flags, always leaving the map empty. -/
theorem C4_summarizeFunction_spec :
    ∀ (self : FunctionAccessedStorage) (F : SILFunction),
      self.storageAccessMap = [] →
      self.unidentifiedAccess = none →
      (F.isDefinition = true → self.summarizeFunction F = (self, false)) ∧
      (F.isDefinition = false → F.sideEffects = none →
        self.summarizeFunction F =
          ({ storageAccessMap := [],
             unidentifiedAccess := some SILAccessKind.Modify }, true)) ∧
      (∀ sig, F.isDefinition = false → F.sideEffects = some sig →
        (self.summarizeFunction F).2 = true ∧
        (self.summarizeFunction F).1.storageAccessMap = [] ∧
        (self.summarizeFunction F).1.unidentifiedAccess =
          (if sig.globalMayWrite
              || sig.parameterEffects.any (fun p => p.mayWrite) then
             some SILAccessKind.Modify
           else if sig.globalMayRead
              || sig.parameterEffects.any (fun p => p.mayRead) then
             some SILAccessKind.Read
           else none)) := by
  intro self F h1 h2
  refine ⟨fun hd => ?_, fun hd hse => ?_, fun sig hd hse => ?_⟩
  · simp [FunctionAccessedStorage.summarizeFunction, hd]
  · simp [FunctionAccessedStorage.summarizeFunction, hd, hse,
      FunctionAccessedStorage.setWorstEffects]
  · obtain ⟨m, u⟩ := self
    simp only [FunctionAccessedStorage.mk.injEq] at h1 h2
    subst h1
    subst h2
    simp only [FunctionAccessedStorage.summarizeFunction, hd, hse,
      Bool.false_eq_true, if_false, foldl_or_eq_any]
    cases hw : (sig.globalMayWrite
        || sig.parameterEffects.any (fun p => p.mayWrite)) <;>
      cases hr : (sig.globalMayRead
          || sig.parameterEffects.any (fun p => p.mayRead)) <;>
      simp [hw, hr]

/-- Witness for C4: a bodiless function whose signature has one writing
parameter yields success with a worst-case Modify unidentified slot and an
empty map. -/
theorem C4_summarizeFunction_spec_witness :
    (FunctionAccessedStorage.summarizeFunction
        { storageAccessMap := [], unidentifiedAccess := none }
        { isDefinition := false,
          sideEffects := some
            { globalMayRead := false, globalMayWrite := false,
              parameterEffects := [⟨false, false⟩, ⟨false, true⟩] } }).2 = true ∧
    (FunctionAccessedStorage.summarizeFunction
        { storageAccessMap := [], unidentifiedAccess := none }
        { isDefinition := false,
          sideEffects := some
            { globalMayRead := false, globalMayWrite := false,
              parameterEffects := [⟨false, false⟩, ⟨false, true⟩] } }).1.storageAccessMap = [] ∧
    (FunctionAccessedStorage.summarizeFunction
        { storageAccessMap := [], unidentifiedAccess := none }
        { isDefinition := false,
          sideEffects := some
            { globalMayRead := false, globalMayWrite := false,
              parameterEffects := [⟨false, false⟩, ⟨false, true⟩] } }).1.unidentifiedAccess =
      some SILAccessKind.Modify := by
  have h := (C4_summarizeFunction_spec
    { storageAccessMap := [], unidentifiedAccess := none }
    { isDefinition := false,
      sideEffects := some
        { globalMayRead := false, globalMayWrite := false,
          parameterEffects := [⟨false, false⟩, ⟨false, true⟩] } }
    rfl rfl).2.2
    { globalMayRead := false, globalMayWrite := false,
      parameterEffects := [⟨false, false⟩, ⟨false, true⟩] } rfl rfl
  exact ⟨h.1, h.2.1, by rw [h.2.2]; decide⟩

theorem mergeLoop_skip_local (ro : SILValue → AccessedStorage)
    (fullApply : FullApplySite) :
    ∀ (l : List (AccessedStorage × StorageAccessInfo))
      (acc : FunctionAccessedStorage × Bool),
      mergeLoop (fun s => transformCalleeStorage ro s fullApply) acc
          (l.filter (fun e => !(e.1.isLocal))) =
        mergeLoop (fun s => transformCalleeStorage ro s fullApply) acc l
  | [], _ => rfl
  | e :: rest, acc => by
    by_cases hl : e.1.isLocal = true
    · have hstep : mergeStep (fun s => transformCalleeStorage ro s fullApply)
          acc e = .ok acc := by
        rcases e with ⟨st, info⟩
        cases st <;> simp_all [AccessedStorage.isLocal, mergeStep,
          transformCalleeStorage]
      have hfilter : (e :: rest).filter (fun x => !(x.1.isLocal)) =
          rest.filter (fun x => !(x.1.isLocal)) := by
        simp [List.filter, hl]
      rw [hfilter, mergeLoop_skip_local ro fullApply rest acc]
      conv_rhs => rw [mergeLoop]
      rw [hstep]
    · have hfilter : (e :: rest).filter (fun x => !(x.1.isLocal)) =
          e :: rest.filter (fun x => !(x.1.isLocal)) := by
        simp [List.filter, Bool.not_eq_true] at hl ⊢
        simp [hl]
      rw [hfilter, mergeLoop, mergeLoop]
      cases hs : mergeStep (fun s => transformCalleeStorage ro s fullApply)
          acc e with
      | error u => rfl
      | ok acc2 => exact mergeLoop_skip_local ro fullApply rest acc2

/-- C2: the callee-to-caller transform maps Stack and Box storage to the
invalid storage object, and `mergeAccesses` drops such entries, so
`mergeFromApply` behaves exactly as if all Stack/Box entries were removed
from the callee summary first: none is ever inserted into the caller's map or
folded into its unidentified slot. -/
theorem C2_local_storage_confined :
    ∀ (ro : SILValue → AccessedStorage) (fullApply : FullApplySite)
      (self callee : FunctionAccessedStorage) (i : Nat),
      transformCalleeStorage ro (AccessedStorage.stack i) fullApply =
        .ok none ∧
      transformCalleeStorage ro (AccessedStorage.box i) fullApply =
        .ok none ∧
      FunctionAccessedStorage.mergeFromApply ro self callee fullApply =
        FunctionAccessedStorage.mergeFromApply ro self
          { callee with
              storageAccessMap :=
                callee.storageAccessMap.filter (fun e => !(e.1.isLocal)) }
          fullApply := by
  intro ro fullApply self callee i
  refine ⟨rfl, rfl, ?_⟩
  unfold FunctionAccessedStorage.mergeFromApply
    FunctionAccessedStorage.mergeAccesses
  rw [mergeLoop_skip_local]

/-- Witness for C2 at a concrete stack storage and call site. -/
theorem C2_local_storage_confined_witness :
    transformCalleeStorage (fun _ => AccessedStorage.global 0)
        (AccessedStorage.stack 3)
        { arguments := [], calleeOriginPAI := none } = .ok none :=
  (C2_local_storage_confined (fun _ => AccessedStorage.global 0)
    { arguments := [], calleeOriginPAI := none }
    { storageAccessMap := [], unidentifiedAccess := none }
    { storageAccessMap := [], unidentifiedAccess := none } 3).1

/-- C3: for an Argument(index) identity, the transform resolves the index to
a caller-side value (directly, or through exactly one partial-application
layer) and applies the origin-resolution capability to it; on failure it
demotes to Unidentified anchored at the callee-side value. The final conjunct
is the concrete scenario: a callee mapping Argument(0) and a call passing a
value of global origin yields the global entry in the caller's summary. -/
theorem C3_argument_transform_spec :
    ∀ (ro : SILValue → AccessedStorage) (fullApply : FullApplySite)
      (index : Nat) (v : SILValue),
      (∀ argVal, getCallerArg fullApply index = some argVal →
        transformCalleeStorage ro (AccessedStorage.argument index v) fullApply =
          .ok (some (ro argVal))) ∧
      (getCallerArg fullApply index = none →
        transformCalleeStorage ro (AccessedStorage.argument index v) fullApply =
          .ok (some (AccessedStorage.unidentified v))) ∧
      (∀ h : index < fullApply.arguments.length,
        getCallerArg fullApply index =
          some (fullApply.arguments.get ⟨index, h⟩)) ∧
      (¬ index < fullApply.arguments.length →
        fullApply.calleeOriginPAI = none →
        getCallerArg fullApply index = none) ∧
      (∀ PAI, ¬ index < fullApply.arguments.length →
        fullApply.calleeOriginPAI = some PAI →
        ∀ h2 : appliedCalleeArgIndex index PAI < PAI.arguments.length,
          getCallerArg fullApply index =
            some (PAI.arguments.get ⟨appliedCalleeArgIndex index PAI, h2⟩)) ∧
      (∀ PAI, ¬ index < fullApply.arguments.length →
        fullApply.calleeOriginPAI = some PAI →
        ¬ appliedCalleeArgIndex index PAI < PAI.arguments.length →
        getCallerArg fullApply index = none) ∧
      (∀ (self callee : FunctionAccessedStorage) (a0 : SILValue)
         (args : List SILValue) (x : Nat) (info : StorageAccessInfo),
        fullApply.arguments = a0 :: args →
        ro a0 = AccessedStorage.global x →
        self.storageAccessMap = [] → self.unidentifiedAccess = none →
        callee.storageAccessMap = [(AccessedStorage.argument 0 v, info)] →
        callee.unidentifiedAccess = none →
        FunctionAccessedStorage.mergeFromApply ro self callee fullApply =
          .ok ({ storageAccessMap := [(AccessedStorage.global x, info)],
                 unidentifiedAccess := none }, true)) := by
  intro ro fullApply index v
  refine ⟨fun argVal h => ?_, fun h => ?_, fun h => ?_, fun h hp => ?_,
    fun PAI h hp h2 => ?_, fun PAI h hp h2 => ?_,
    fun self callee a0 args x info hargs hro hm hu hcm hcu => ?_⟩
  · simp [transformCalleeStorage, h]
  · simp [transformCalleeStorage, h]
  · simp [getCallerArg, h]
  · simp [getCallerArg, h, hp]
  · simp [getCallerArg, h, hp, h2]
  · simp [getCallerArg, h, hp, h2]
  · obtain ⟨sm, su⟩ := self
    obtain ⟨cm, cu⟩ := callee
    simp only [FunctionAccessedStorage.mk.injEq] at hm hu hcm hcu
    subst hm; subst hu; subst hcm; subst hcu
    have hget : getCallerArg fullApply 0 = some a0 := by
      simp [getCallerArg, hargs]
    unfold FunctionAccessedStorage.mergeFromApply
      FunctionAccessedStorage.mergeAccesses
    simp [mergeLoop, mergeStep, transformCalleeStorage, hget, hro,
      AccessedStorage.isUnidentified, lookupStorage]

/-- Witness for C3: the concrete scenario at a specific call site. -/
theorem C3_argument_transform_spec_witness :
    FunctionAccessedStorage.mergeFromApply (fun _ => AccessedStorage.global 9)
        { storageAccessMap := [], unidentifiedAccess := none }
        { storageAccessMap :=
            [(AccessedStorage.argument 0 (SILValue.other 1),
              ⟨SILAccessKind.Modify, true⟩)],
          unidentifiedAccess := none }
        { arguments := [SILValue.other 5], calleeOriginPAI := none } =
      .ok ({ storageAccessMap :=
               [(AccessedStorage.global 9, ⟨SILAccessKind.Modify, true⟩)],
             unidentifiedAccess := none }, true) :=
  (C3_argument_transform_spec (fun _ => AccessedStorage.global 9)
    { arguments := [SILValue.other 5], calleeOriginPAI := none } 0
    (SILValue.other 1)).2.2.2.2.2.2
    { storageAccessMap := [], unidentifiedAccess := none }
    { storageAccessMap :=
        [(AccessedStorage.argument 0 (SILValue.other 1),
          ⟨SILAccessKind.Modify, true⟩)],
      unidentifiedAccess := none }
    (SILValue.other 5) [] 9 ⟨SILAccessKind.Modify, true⟩
    rfl rfl rfl rfl rfl rfl

theorem mergeStep_eq_of_error
    (transform : AccessedStorage → Except Unit (Option AccessedStorage))
    (acc : FunctionAccessedStorage × Bool)
    (e : AccessedStorage × StorageAccessInfo) (u : Unit)
    (h : transform e.1 = .error u) :
    mergeStep transform acc e = .error u := by
  unfold mergeStep
  rw [h]

theorem mergeStep_eq_of_none
    (transform : AccessedStorage → Except Unit (Option AccessedStorage))
    (acc : FunctionAccessedStorage × Bool)
    (e : AccessedStorage × StorageAccessInfo)
    (h : transform e.1 = .ok none) :
    mergeStep transform acc e = .ok acc := by
  unfold mergeStep
  rw [h]

theorem mergeStep_eq_of_some
    (transform : AccessedStorage → Except Unit (Option AccessedStorage))
    (acc : FunctionAccessedStorage × Bool)
    (e : AccessedStorage × StorageAccessInfo) (storage : AccessedStorage)
    (h : transform e.1 = .ok (some storage)) :
    mergeStep transform acc e =
      (if storage.isUnidentified then
        .ok ((acc.1.updateUnidentifiedAccess e.2.accessKind).1,
          acc.2 || (acc.1.updateUnidentifiedAccess e.2.accessKind).2)
      else
        match lookupStorage acc.1.storageAccessMap storage with
        | none =>
          .ok ({ acc.1 with
                  storageAccessMap :=
                    acc.1.storageAccessMap ++ [(storage, e.2)] }, true)
        | some info =>
          .ok ({ acc.1 with
                  storageAccessMap :=
                    replaceFirst acc.1.storageAccessMap storage
                      (info.mergeFrom e.2).1 },
               acc.2 || (info.mergeFrom e.2).2)) := by
  unfold mergeStep
  rw [h]

theorem transformCalleeStorage_ok (ro : SILValue → AccessedStorage)
    (fullApply : FullApplySite) (storage : AccessedStorage)
    (h : storage.isNested = false) :
    ∃ r, transformCalleeStorage ro storage fullApply = .ok r := by
  cases storage with
  | nested i => simp [AccessedStorage.isNested] at h
  | box i => exact ⟨none, rfl⟩
  | stack i => exact ⟨none, rfl⟩
  | global g => exact ⟨_, rfl⟩
  | unidentified w => exact ⟨_, rfl⟩
  | argument idx w =>
    cases hg : getCallerArg fullApply idx with
    | some a =>
      exact ⟨some (ro a), by simp [transformCalleeStorage, hg]⟩
    | none =>
      exact ⟨some (AccessedStorage.unidentified w),
        by simp [transformCalleeStorage, hg]⟩
  | classStorage obj projection =>
    cases obj with
    | other id => exact ⟨_, rfl⟩
    | functionArg idx id =>
      cases hg : getCallerArg fullApply idx with
      | some a =>
        exact ⟨some (AccessedStorage.classStorage a projection),
          by simp [transformCalleeStorage, hg]⟩
      | none =>
        exact ⟨some (AccessedStorage.classStorage
            (SILValue.functionArg idx id) projection),
          by simp [transformCalleeStorage, hg]⟩

theorem mergeLoop_ok
    (transform : AccessedStorage → Except Unit (Option AccessedStorage)) :
    ∀ (l : List (AccessedStorage × StorageAccessInfo))
      (acc : FunctionAccessedStorage × Bool),
      (∀ e ∈ l, ∃ r, transform e.1 = .ok r) →
      ∃ r, mergeLoop transform acc l = .ok r
  | [], acc, _ => ⟨acc, rfl⟩
  | e :: rest, acc, h => by
    obtain ⟨r0, hr0⟩ := h e (List.mem_cons_self e rest)
    have hstep : ∃ acc2, mergeStep transform acc e = .ok acc2 := by
      cases r0 with
      | none => exact ⟨acc, mergeStep_eq_of_none transform acc e hr0⟩
      | some storage =>
        rw [mergeStep_eq_of_some transform acc e storage hr0]
        by_cases hu : storage.isUnidentified = true
        · rw [if_pos hu]
          exact ⟨_, rfl⟩
        · rw [if_neg hu]
          cases hl : lookupStorage acc.1.storageAccessMap storage with
          | none => exact ⟨_, rfl⟩
          | some info => exact ⟨_, rfl⟩
    obtain ⟨acc2, h2⟩ := hstep
    obtain ⟨r, hr⟩ := mergeLoop_ok transform rest acc2
      (fun e' he' => h e' (List.mem_cons_of_mem e he'))
    exact ⟨r, by rw [mergeLoop, h2]; exact hr⟩

theorem mergeAccesses_ok (self other : FunctionAccessedStorage)
    (transform : AccessedStorage → Except Unit (Option AccessedStorage))
    (h : ∀ e ∈ other.storageAccessMap, ∃ r, transform e.1 = .ok r) :
    ∃ r, self.mergeAccesses other transform = .ok r := by
  obtain ⟨⟨s, ch⟩, hl⟩ := mergeLoop_ok transform other.storageAccessMap
    (self, false) h
  unfold FunctionAccessedStorage.mergeAccesses
  rw [hl]
  cases other.unidentifiedAccess <;> exact ⟨_, rfl⟩

/-- C9: the transform hits the unreachable branch exactly on Nested storage;
on every other storage kind it is total, so under the invariant that a
finished callee summary contains no Nested keys, `mergeFromApply` never
executes the unreachable branch. -/
theorem C9_nested_unreachable :
    ∀ (ro : SILValue → AccessedStorage) (fullApply : FullApplySite)
      (storage : AccessedStorage) (self callee : FunctionAccessedStorage)
      (i : Nat),
      transformCalleeStorage ro (AccessedStorage.nested i) fullApply =
        .error () ∧
      (storage.isNested = false →
        ∃ r, transformCalleeStorage ro storage fullApply = .ok r) ∧
      ((∀ e ∈ callee.storageAccessMap, e.1.isNested = false) →
        ∃ r, FunctionAccessedStorage.mergeFromApply ro self callee fullApply =
          .ok r) := by
  intro ro fullApply storage self callee i
  refine ⟨rfl, fun h => transformCalleeStorage_ok ro fullApply storage h,
    fun h => ?_⟩
  exact mergeAccesses_ok self callee _
    (fun e he => transformCalleeStorage_ok ro fullApply e.1 (h e he))

/-- Witness for C9: a callee summary with a Global entry merges without
hitting the unreachable branch. -/
theorem C9_nested_unreachable_witness :
    ∃ r, FunctionAccessedStorage.mergeFromApply
        (fun _ => AccessedStorage.global 0)
        { storageAccessMap := [], unidentifiedAccess := none }
        { storageAccessMap :=
            [(AccessedStorage.global 1, ⟨SILAccessKind.Read, true⟩)],
          unidentifiedAccess := none }
        { arguments := [], calleeOriginPAI := none } = .ok r :=
  (C9_nested_unreachable (fun _ => AccessedStorage.global 0)
    { arguments := [], calleeOriginPAI := none }
    (AccessedStorage.global 1)
    { storageAccessMap := [], unidentifiedAccess := none }
    { storageAccessMap :=
        [(AccessedStorage.global 1, ⟨SILAccessKind.Read, true⟩)],
      unidentifiedAccess := none } 0).2.2
    (by intro e he; simp at he; subst he; rfl)

theorem le_refl_record (v : StorageAccessInfo) : v.le v :=
  ⟨fun h => h, fun h => h⟩

theorem le_trans_record {a b c : StorageAccessInfo}
    (h1 : a.le b) (h2 : b.le c) : a.le c :=
  ⟨fun h => h2.1 (h1.1 h), fun h => h1.2 (h2.2 h)⟩

theorem mergeFrom_le_left (v i : StorageAccessInfo) :
    v.le (v.mergeFrom i).1 := by
  obtain ⟨k1, n1⟩ := v
  obtain ⟨k2, n2⟩ := i
  cases k1 <;> cases k2 <;> cases n1 <;> cases n2 <;>
    exact ⟨fun h => by simp_all [StorageAccessInfo.mergeFrom, updateAccessKind],
           fun h => by simp_all [StorageAccessInfo.mergeFrom, updateAccessKind]⟩

theorem mergeFrom_self (v : StorageAccessInfo) : v.mergeFrom v = (v, false) := by
  obtain ⟨k, n⟩ := v
  cases k <;> cases n <;> decide

theorem summaryLE_refl (a : FunctionAccessedStorage) : summaryLE a a :=
  ⟨fun _ v h => ⟨v, h, le_refl_record v⟩, fun u h => ⟨u, h, fun hm => hm⟩⟩

theorem summaryLE_trans {a b c : FunctionAccessedStorage}
    (h1 : summaryLE a b) (h2 : summaryLE b c) : summaryLE a c := by
  constructor
  · intro k v h
    obtain ⟨w, hw, hvw⟩ := h1.1 k v h
    obtain ⟨x, hx, hwx⟩ := h2.1 k w hw
    exact ⟨x, hx, le_trans_record hvw hwx⟩
  · intro u h
    obtain ⟨w, hw, hvw⟩ := h1.2 u h
    obtain ⟨x, hx, hwx⟩ := h2.2 w hw
    exact ⟨x, hx, fun hm => hwx (hvw hm)⟩

theorem updateUnidentifiedAccess_map (self : FunctionAccessedStorage)
    (k : SILAccessKind) :
    (self.updateUnidentifiedAccess k).1.storageAccessMap =
      self.storageAccessMap := by
  cases h : self.unidentifiedAccess <;>
    simp [FunctionAccessedStorage.updateUnidentifiedAccess, h]

theorem updateUnidentifiedAccess_le (self : FunctionAccessedStorage)
    (k : SILAccessKind) :
    summaryLE self (self.updateUnidentifiedAccess k).1 := by
  constructor
  · intro k' v h
    refine ⟨v, ?_, le_refl_record v⟩
    rw [updateUnidentifiedAccess_map]
    exact h
  · intro u hu
    refine ⟨(updateAccessKind u k).1, ?_, ?_⟩
    · simp [FunctionAccessedStorage.updateUnidentifiedAccess, hu]
    · cases u <;> cases k <;> decide

theorem lookupStorage_append :
    ∀ (m l : List (AccessedStorage × StorageAccessInfo)) (k : AccessedStorage)
      (v : StorageAccessInfo),
      lookupStorage m k = some v → lookupStorage (m ++ l) k = some v
  | [], _, _, _, h => by simp [lookupStorage] at h
  | e :: rest, l, k, v, h => by
    rw [lookupStorage] at h
    by_cases he : e.1 = k
    · rw [if_pos he] at h
      rw [List.cons_append, lookupStorage, if_pos he]
      exact h
    · rw [if_neg he] at h
      rw [List.cons_append, lookupStorage, if_neg he]
      exact lookupStorage_append rest l k v h

theorem lookupStorage_replaceFirst_le :
    ∀ (m : List (AccessedStorage × StorageAccessInfo)) (k0 : AccessedStorage)
      (v0 w0 : StorageAccessInfo),
      lookupStorage m k0 = some v0 → v0.le w0 →
      ∀ k v, lookupStorage m k = some v →
        ∃ w, lookupStorage (replaceFirst m k0 w0) k = some w ∧ v.le w
  | [], _, _, _, h0, _, _, _, _ => by simp [lookupStorage] at h0
  | e :: rest, k0, v0, w0, h0, hle, k, v, h => by
    rw [lookupStorage] at h h0
    rw [replaceFirst]
    by_cases he0 : e.1 = k0
    · rw [if_pos he0] at h0 ⊢
      have hv0 : e.2 = v0 := Option.some.inj h0
      by_cases hek : e.1 = k
      · rw [if_pos hek] at h
        have hv : e.2 = v := Option.some.inj h
        refine ⟨w0, ?_, ?_⟩
        · rw [lookupStorage, if_pos (by rw [← he0, hek])]
        · rw [← hv, hv0]
          exact hle
      · rw [if_neg hek] at h
        refine ⟨v, ?_, le_refl_record v⟩
        rw [lookupStorage, if_neg (by rw [← he0]; exact hek)]
        exact h
    · rw [if_neg he0] at h0 ⊢
      by_cases hek : e.1 = k
      · rw [if_pos hek] at h
        refine ⟨v, ?_, le_refl_record v⟩
        rw [lookupStorage, if_pos hek]
        exact h
      · rw [if_neg hek] at h
        obtain ⟨w, hw, hlew⟩ :=
          lookupStorage_replaceFirst_le rest k0 v0 w0 h0 hle k v h
        refine ⟨w, ?_, hlew⟩
        rw [lookupStorage, if_neg hek]
        exact hw

theorem mergeStep_eq_unid
    (transform : AccessedStorage → Except Unit (Option AccessedStorage))
    (acc : FunctionAccessedStorage × Bool)
    (e : AccessedStorage × StorageAccessInfo) (storage : AccessedStorage)
    (h : transform e.1 = .ok (some storage))
    (hu : storage.isUnidentified = true) :
    mergeStep transform acc e =
      .ok ((acc.1.updateUnidentifiedAccess e.2.accessKind).1,
           acc.2 || (acc.1.updateUnidentifiedAccess e.2.accessKind).2) := by
  rw [mergeStep_eq_of_some transform acc e storage h, if_pos hu]

theorem mergeStep_eq_insert
    (transform : AccessedStorage → Except Unit (Option AccessedStorage))
    (acc : FunctionAccessedStorage × Bool)
    (e : AccessedStorage × StorageAccessInfo) (storage : AccessedStorage)
    (h : transform e.1 = .ok (some storage))
    (hu : storage.isUnidentified = false)
    (hl : lookupStorage acc.1.storageAccessMap storage = none) :
    mergeStep transform acc e =
      .ok ({ acc.1 with
              storageAccessMap := acc.1.storageAccessMap ++ [(storage, e.2)] },
           true) := by
  rw [mergeStep_eq_of_some transform acc e storage h, if_neg (by simp [hu]),
    hl]

theorem mergeStep_eq_merge
    (transform : AccessedStorage → Except Unit (Option AccessedStorage))
    (acc : FunctionAccessedStorage × Bool)
    (e : AccessedStorage × StorageAccessInfo) (storage : AccessedStorage)
    (info : StorageAccessInfo)
    (h : transform e.1 = .ok (some storage))
    (hu : storage.isUnidentified = false)
    (hl : lookupStorage acc.1.storageAccessMap storage = some info) :
    mergeStep transform acc e =
      .ok ({ acc.1 with
              storageAccessMap :=
                replaceFirst acc.1.storageAccessMap storage
                  (info.mergeFrom e.2).1 },
           acc.2 || (info.mergeFrom e.2).2) := by
  rw [mergeStep_eq_of_some transform acc e storage h, if_neg (by simp [hu]),
    hl]

theorem mergeLoop_cons_ok
    (transform : AccessedStorage → Except Unit (Option AccessedStorage))
    (acc acc2 : FunctionAccessedStorage × Bool)
    (e : AccessedStorage × StorageAccessInfo)
    (rest : List (AccessedStorage × StorageAccessInfo))
    (h : mergeStep transform acc e = .ok acc2) :
    mergeLoop transform acc (e :: rest) = mergeLoop transform acc2 rest := by
  rw [mergeLoop, h]

theorem mergeLoop_cons_error
    (transform : AccessedStorage → Except Unit (Option AccessedStorage))
    (acc : FunctionAccessedStorage × Bool)
    (e : AccessedStorage × StorageAccessInfo)
    (rest : List (AccessedStorage × StorageAccessInfo)) (u : Unit)
    (h : mergeStep transform acc e = .error u) :
    mergeLoop transform acc (e :: rest) = .error u := by
  rw [mergeLoop, h]

theorem mergeStep_le
    (transform : AccessedStorage → Except Unit (Option AccessedStorage))
    (acc acc2 : FunctionAccessedStorage × Bool)
    (e : AccessedStorage × StorageAccessInfo)
    (h : mergeStep transform acc e = .ok acc2) : summaryLE acc.1 acc2.1 := by
  cases ht : transform e.1 with
  | error u =>
    rw [mergeStep_eq_of_error transform acc e u ht] at h
    exact Except.noConfusion h
  | ok r =>
    cases r with
    | none =>
      rw [mergeStep_eq_of_none transform acc e ht] at h
      injection h with h2
      rw [← h2]
      exact summaryLE_refl _
    | some storage =>
      by_cases hu : storage.isUnidentified = true
      · rw [mergeStep_eq_unid transform acc e storage ht hu] at h
        injection h with h2
        rw [← h2]
        exact updateUnidentifiedAccess_le acc.1 e.2.accessKind
      · have hu2 : storage.isUnidentified = false := by
          simpa using hu
        cases hl : lookupStorage acc.1.storageAccessMap storage with
        | none =>
          rw [mergeStep_eq_insert transform acc e storage ht hu2 hl] at h
          injection h with h2
          rw [← h2]
          constructor
          · intro k v hk
            exact ⟨v, lookupStorage_append acc.1.storageAccessMap
              [(storage, e.2)] k v hk, le_refl_record v⟩
          · intro u hu3
            exact ⟨u, hu3, fun hm => hm⟩
        | some info =>
          rw [mergeStep_eq_merge transform acc e storage info ht hu2 hl] at h
          injection h with h2
          rw [← h2]
          constructor
          · intro k v hk
            exact lookupStorage_replaceFirst_le acc.1.storageAccessMap storage
              info (info.mergeFrom e.2).1 hl (mergeFrom_le_left info e.2) k v hk
          · intro u hu3
            exact ⟨u, hu3, fun hm => hm⟩

theorem mergeLoop_le
    (transform : AccessedStorage → Except Unit (Option AccessedStorage)) :
    ∀ (l : List (AccessedStorage × StorageAccessInfo))
      (acc r : FunctionAccessedStorage × Bool),
      mergeLoop transform acc l = .ok r → summaryLE acc.1 r.1
  | [], acc, r, h => by
    rw [mergeLoop] at h
    injection h with h2
    rw [← h2]
    exact summaryLE_refl _
  | e :: rest, acc, r, h => by
    cases hs : mergeStep transform acc e with
    | error u =>
      rw [mergeLoop_cons_error transform acc e rest u hs] at h
      exact Except.noConfusion h
    | ok acc2 =>
      rw [mergeLoop_cons_ok transform acc acc2 e rest hs] at h
      exact summaryLE_trans (mergeStep_le transform acc acc2 e hs)
        (mergeLoop_le transform rest acc2 r h)

theorem mergeAccesses_le (self other : FunctionAccessedStorage)
    (transform : AccessedStorage → Except Unit (Option AccessedStorage))
    (r : FunctionAccessedStorage × Bool)
    (h : self.mergeAccesses other transform = .ok r) : summaryLE self r.1 := by
  unfold FunctionAccessedStorage.mergeAccesses at h
  cases hl : mergeLoop transform (self, false) other.storageAccessMap with
  | error u =>
    rw [hl] at h
    exact Except.noConfusion h
  | ok p =>
    rw [hl] at h
    obtain ⟨s, ch⟩ := p
    have h1 : summaryLE self s :=
      mergeLoop_le transform other.storageAccessMap (self, false) (s, ch) hl
    cases hu : other.unidentifiedAccess with
    | none =>
      rw [hu] at h
      have h2 : (Except.ok (s, ch) :
          Except Unit (FunctionAccessedStorage × Bool)) = .ok r := h
      injection h2 with h3
      rw [← h3]
      exact h1
    | some u =>
      rw [hu] at h
      have h2 : (Except.ok ((s.updateUnidentifiedAccess u).1,
          ch || (s.updateUnidentifiedAccess u).2) :
          Except Unit (FunctionAccessedStorage × Bool)) = .ok r := h
      injection h2 with h3
      rw [← h3]
      exact summaryLE_trans h1 (updateUnidentifiedAccess_le s u)

/-- C10: every merge operation only grows the receiving summary — no key is
removed, no record is downgraded, and the unidentified slot is never cleared
nor downgraded — for `mergeAccesses` and hence for `mergeFrom` and
`mergeFromApply`. -/
theorem C10_merge_only_grows :
    ∀ (self other : FunctionAccessedStorage)
      (transform : AccessedStorage → Except Unit (Option AccessedStorage))
      (r : FunctionAccessedStorage × Bool),
      (self.mergeAccesses other transform = .ok r → summaryLE self r.1) ∧
      (self.mergeFrom other = .ok r → summaryLE self r.1) ∧
      (∀ (ro : SILValue → AccessedStorage) (fullApply : FullApplySite),
        FunctionAccessedStorage.mergeFromApply ro self other fullApply =
          .ok r → summaryLE self r.1) := by
  intro self other transform r
  exact ⟨mergeAccesses_le self other transform r,
    mergeAccesses_le self other _ r,
    fun ro fullApply => mergeAccesses_le self other _ r⟩

/-- Witness for C10: a self-growth instance at a concrete summary. -/
theorem C10_merge_only_grows_witness :
    summaryLE
      { storageAccessMap :=
          [(AccessedStorage.global 1, ⟨SILAccessKind.Read, true⟩)],
        unidentifiedAccess := some SILAccessKind.Read }
      { storageAccessMap :=
          [(AccessedStorage.global 1, ⟨SILAccessKind.Read, true⟩)],
        unidentifiedAccess := some SILAccessKind.Read } :=
  (C10_merge_only_grows
    { storageAccessMap :=
        [(AccessedStorage.global 1, ⟨SILAccessKind.Read, true⟩)],
      unidentifiedAccess := some SILAccessKind.Read }
    { storageAccessMap := [], unidentifiedAccess := none }
    (fun s => .ok (some s))
    ({ storageAccessMap :=
         [(AccessedStorage.global 1, ⟨SILAccessKind.Read, true⟩)],
       unidentifiedAccess := some SILAccessKind.Read }, false)).2.1 rfl

theorem updateUnidentifiedAccess_eq_some (self : FunctionAccessedStorage)
    (u k : SILAccessKind) (h : self.unidentifiedAccess = some u) :
    self.updateUnidentifiedAccess k =
      ({ self with unidentifiedAccess := some (updateAccessKind u k).1 },
       (updateAccessKind u k).2) := by
  unfold FunctionAccessedStorage.updateUnidentifiedAccess
  rw [h]

theorem lookupStorage_of_mem :
    ∀ (m : List (AccessedStorage × StorageAccessInfo))
      (e : AccessedStorage × StorageAccessInfo),
      (m.map Prod.fst).Nodup → e ∈ m → lookupStorage m e.1 = some e.2
  | [], e, _, he => absurd he (List.not_mem_nil e)
  | f :: rest, e, hnd, he => by
    rw [List.map_cons, List.nodup_cons] at hnd
    rcases List.mem_cons.mp he with rfl | hmem
    · rw [lookupStorage, if_pos rfl]
    · have hne : f.1 ≠ e.1 := by
        intro hfe
        exact hnd.1 (by rw [hfe]; exact List.mem_map_of_mem Prod.fst hmem)
      rw [lookupStorage, if_neg hne]
      exact lookupStorage_of_mem rest e hnd.2 hmem

theorem replaceFirst_self :
    ∀ (m : List (AccessedStorage × StorageAccessInfo)) (k : AccessedStorage)
      (v : StorageAccessInfo),
      lookupStorage m k = some v → replaceFirst m k v = m
  | [], _, _, h => by simp [lookupStorage] at h
  | e :: rest, k, v, h => by
    rw [lookupStorage] at h
    by_cases he : e.1 = k
    · rw [if_pos he] at h
      obtain rfl : e.2 = v := Option.some.inj h
      rw [replaceFirst, if_pos he, ← he]
    · rw [if_neg he] at h
      rw [replaceFirst, if_neg he, replaceFirst_self rest k v h]

theorem mergeLoop_id_self (self : FunctionAccessedStorage)
    (hnd : (self.storageAccessMap.map Prod.fst).Nodup)
    (hwf : ∀ e ∈ self.storageAccessMap, e.1.isUnidentified = false) :
    ∀ l : List (AccessedStorage × StorageAccessInfo),
      (∀ e ∈ l, e ∈ self.storageAccessMap) →
      mergeLoop (fun s => .ok (some s)) (self, false) l = .ok (self, false)
  | [], _ => rfl
  | e :: rest, h => by
    have hmem := h e (List.mem_cons_self e rest)
    have hlk := lookupStorage_of_mem self.storageAccessMap e hnd hmem
    have hstep := mergeStep_eq_merge (fun s => .ok (some s)) (self, false) e
      e.1 e.2 rfl (hwf e hmem) hlk
    rw [mergeFrom_self, replaceFirst_self self.storageAccessMap e.1 e.2 hlk]
      at hstep
    have hstep2 : mergeStep (fun s => .ok (some s)) (self, false) e =
        .ok (self, false) := by
      rw [hstep]
      rfl
    rw [mergeLoop_cons_ok _ _ _ _ rest hstep2]
    exact mergeLoop_id_self self hnd hwf rest
      (fun e' he' => h e' (List.mem_cons_of_mem e he'))

/-- C7: merging a well-formed summary into itself with the identity transform
reports no change and leaves the summary exactly as it was. -/
theorem C7_mergeFrom_self_idempotent :
    ∀ self : FunctionAccessedStorage, WF self →
      self.mergeFrom self = .ok (self, false) := by
  intro self hwf
  unfold FunctionAccessedStorage.mergeFrom FunctionAccessedStorage.mergeAccesses
  rw [mergeLoop_id_self self hwf.1 hwf.2 self.storageAccessMap
    (fun _ he => he)]
  cases hu : self.unidentifiedAccess with
  | none => rfl
  | some u =>
    cases u with
    | Read =>
      show (Except.ok ((self.updateUnidentifiedAccess SILAccessKind.Read).1,
          false || (self.updateUnidentifiedAccess SILAccessKind.Read).2) :
          Except Unit (FunctionAccessedStorage × Bool)) = .ok (self, false)
      rw [updateUnidentifiedAccess_eq_some self SILAccessKind.Read
        SILAccessKind.Read hu]
      show (Except.ok
          ({ self with unidentifiedAccess := some SILAccessKind.Read },
            false || false) :
          Except Unit (FunctionAccessedStorage × Bool)) = .ok (self, false)
      rw [← hu]
      rfl
    | Modify =>
      show (Except.ok ((self.updateUnidentifiedAccess SILAccessKind.Modify).1,
          false || (self.updateUnidentifiedAccess SILAccessKind.Modify).2) :
          Except Unit (FunctionAccessedStorage × Bool)) = .ok (self, false)
      rw [updateUnidentifiedAccess_eq_some self SILAccessKind.Modify
        SILAccessKind.Modify hu]
      show (Except.ok
          ({ self with unidentifiedAccess := some SILAccessKind.Modify },
            false || false) :
          Except Unit (FunctionAccessedStorage × Bool)) = .ok (self, false)
      rw [← hu]
      rfl

/-- Witness for C7 at a concrete well-formed summary. -/
theorem C7_mergeFrom_self_idempotent_witness :
    FunctionAccessedStorage.mergeFrom
        { storageAccessMap :=
            [(AccessedStorage.global 1, ⟨SILAccessKind.Read, true⟩),
             (AccessedStorage.argument 0 (SILValue.functionArg 0 2),
              ⟨SILAccessKind.Modify, false⟩)],
          unidentifiedAccess := some SILAccessKind.Read }
        { storageAccessMap :=
            [(AccessedStorage.global 1, ⟨SILAccessKind.Read, true⟩),
             (AccessedStorage.argument 0 (SILValue.functionArg 0 2),
              ⟨SILAccessKind.Modify, false⟩)],
          unidentifiedAccess := some SILAccessKind.Read } =
      .ok ({ storageAccessMap :=
               [(AccessedStorage.global 1, ⟨SILAccessKind.Read, true⟩),
                (AccessedStorage.argument 0 (SILValue.functionArg 0 2),
                 ⟨SILAccessKind.Modify, false⟩)],
             unidentifiedAccess := some SILAccessKind.Read }, false) :=
  C7_mergeFrom_self_idempotent
    { storageAccessMap :=
        [(AccessedStorage.global 1, ⟨SILAccessKind.Read, true⟩),
         (AccessedStorage.argument 0 (SILValue.functionArg 0 2),
          ⟨SILAccessKind.Modify, false⟩)],
      unidentifiedAccess := some SILAccessKind.Read }
    ⟨by decide, by decide⟩
